import Mathlib

/-
Verification of the concurrent scrape coordinator of the cprobe Kafka
exporter plugin (src/plugins/kafka/exporter/exporter.go) against its
natural-language specification.

Shallow embedding notes:
- Metric values are passed to the Go metric sink as float64(x) where x is an
  int64 (offsets, lags, counts) or a small literal.  The embedding records
  the integer argument x of that conversion as the sample value.
- Go int64 arithmetic wraps modulo 2^64; `wrap64` / `i64add` / `i64sub`
  model this explicitly on `Int`.
- The sarama cluster client and broker connections are external
  collaborators; they are modelled as deterministic snapshot data
  (`ClusterData`, `BrokerData`), exactly mirroring the shape of the results
  the source reads from them.  A `none` / `false` component models a call
  that returned a non-nil error.
- Goroutine interleavings permute the order in which metrics reach the
  output channel, but each worker's contribution and the final offset-table
  contents are as computed here; all theorems below are insensitive to that
  reordering (they speak about per-topic / per-partition contributions,
  membership, and final table contents).
-/

set_option autoImplicit false

namespace Cprobe

/-- One metric sample: FQ metric name, ordered label values, and the integer
argument of the float64 conversion at the emission site. -/
structure MetricSample where
  name : String
  labels : List String
  value : Int
  deriving DecidableEq

/-- Two's-complement wraparound of Go int64 arithmetic (2^63 = 9223372036854775808). -/
def wrap64 (x : Int) : Int :=
  (x + 9223372036854775808) % 18446744073709551616 - 9223372036854775808

/-- Go int64 addition. -/
def i64add (x y : Int) : Int := wrap64 (x + y)

/-- Go int64 subtraction. -/
def i64sub (x y : Int) : Int := wrap64 (x - y)

/-- The shared offset map `offset : map[string]map[int32]int64` of
`Exporter.collect`, flattened to (topic, partition) keys.  Entries earlier in
the list shadow later ones, matching Go map overwrite semantics. -/
abbrev OffsetTable := List ((String × Int) × Int)

/-- Lookup `offset[topic][partition]` (the `offset, ok := offset[topic][partition]` read). -/
def otLookup : OffsetTable → (String × Int) → Option Int
  | [], _ => none
  | kv :: rest, k => if kv.1 = k then some kv.2 else otLookup rest k

/-- Remove all entries with the given key. -/
def otErase : OffsetTable → (String × Int) → OffsetTable
  | [], _ => []
  | kv :: rest, k => if kv.1 = k then otErase rest k else kv :: otErase rest k

/-- Go map write `offset[topic][partition] = v`. -/
def otSet (tbl : OffsetTable) (k : String × Int) (v : Int) : OffsetTable :=
  (k, v) :: otErase tbl k

/-- Go `offset[topic] = make(map[int32]int64, ...)`: drop every entry of that topic. -/
def clearTopic : OffsetTable → String → OffsetTable
  | [], _ => []
  | kv :: rest, t => if kv.1.1 = t then clearTopic rest t else kv :: clearTopic rest t

/-- The fields of `Exporter` that the collect pipeline reads.  The regular
expression filters are abstracted as Boolean predicates (`MatchString`). -/
structure ExporterCfg where
  topicFilter : String → Bool
  topicExclude : String → Bool
  groupFilter : String → Bool
  groupExclude : String → Bool
  useZooKeeperLag : Bool
  offsetShowAll : Bool
  topicWorkers : Int
  allowConcurrent : Bool

/-- Deterministic snapshot of everything `Exporter.collect` reads from the
sarama client during the topic phase.  `Option`/`Bool` components model the
error results of the corresponding fallible calls: for the `GetOffset` calls
the Go code keeps the returned value alongside the error, so those are
modelled as value-and-ok pairs. -/
structure ClusterData where
  topics : Option (List String)
  partitions : String → Option (List Int)
  leader : String → Int → Option Int
  getOffsetNewest : String → Int → Int × Bool
  getOffsetOldest : String → Int → Int × Bool
  replicas : String → Int → Option (List Int)
  inSyncReplicas : String → Int → Option (List Int)
  zkConsumerGroups : List (String × (String → Int → Int))

/-- Value of the `topic_partition_leader_is_preferred` gauge
(exporter.go:466): 1 iff the leader fetch returned a broker, the replica
fetch returned a non-empty list, and the leader id equals its first element. -/
def preferredValue (cd : ClusterData) (topic : String) (p : Int) : Int :=
  match cd.leader topic p, cd.replicas topic p with
  | some bid, some (r :: _) => if bid = r then 1 else 0
  | _, _ => 0

/-- Value of the `topic_partition_under_replicated_partition` gauge
(exporter.go:476). -/
def underReplicatedValue (cd : ClusterData) (topic : String) (p : Int) : Int :=
  match cd.replicas topic p, cd.inSyncReplicas topic p with
  | some rs, some isr => if isr.length < rs.length then 1 else 0
  | _, _ => 0

/-- Metrics emitted for one partition by the per-topic worker body
(exporter.go:417-504), in source order.  A failed fetch contributes no
sample for that attribute and processing continues. -/
def partitionMetrics (e : ExporterCfg) (cd : ClusterData) (topic : String) (p : Int) :
    List MetricSample :=
  (match cd.leader topic p with
   | some bid => [⟨"kafka_topic_partition_leader", [topic, toString p], bid⟩]
   | none => [])
  ++ (if (cd.getOffsetNewest topic p).2 then
        [⟨"kafka_topic_partition_current_offset", [topic, toString p],
          (cd.getOffsetNewest topic p).1⟩]
      else [])
  ++ (if (cd.getOffsetOldest topic p).2 then
        [⟨"kafka_topic_partition_oldest_offset", [topic, toString p],
          (cd.getOffsetOldest topic p).1⟩]
      else [])
  ++ (match cd.replicas topic p with
      | some rs => [⟨"kafka_topic_partition_replicas", [topic, toString p], (rs.length : Int)⟩]
      | none => [])
  ++ (match cd.inSyncReplicas topic p with
      | some isr =>
        [⟨"kafka_topic_partition_in_sync_replica", [topic, toString p], (isr.length : Int)⟩]
      | none => [])
  ++ [⟨"kafka_topic_partition_leader_is_preferred", [topic, toString p], preferredValue cd topic p⟩,
      ⟨"kafka_topic_partition_under_replicated_partition", [topic, toString p],
        underReplicatedValue cd topic p⟩]
  ++ (if e.useZooKeeperLag then
        (cd.zkConsumerGroups.map (fun zg =>
          if zg.2 topic p > 0 then
            [⟨"kafka_consumergroupzookeeper_lag_zookeeper", [zg.1, topic, toString p],
              i64sub (cd.getOffsetNewest topic p).1 (zg.2 topic p)⟩]
          else [])).flatten
      else [])

/-- Partition loop of `getTopicMetrics`: emits each partition's metrics and,
when the newest-offset fetch succeeded, records it in the offset table
(exporter.go:427-437). -/
def processTopicParts (e : ExporterCfg) (cd : ClusterData) (topic : String) :
    List Int → OffsetTable → List MetricSample × OffsetTable
  | [], tbl => ([], tbl)
  | p :: ps, tbl =>
    let pm := partitionMetrics e cd topic p
    let tbl1 := if (cd.getOffsetNewest topic p).2 then
        otSet tbl (topic, p) (cd.getOffsetNewest topic p).1
      else tbl
    let r := processTopicParts e cd topic ps tbl1
    (pm ++ r.1, r.2)

/-- The worker body `getTopicMetrics` (exporter.go:397-505) as a step of a
fold over topics.  The allow/deny guard appears both at dispatch
(exporter.go:538) and at worker entry (exporter.go:401); both evaluate the
same predicate, modelled by this single guard. -/
def getTopicMetrics (e : ExporterCfg) (cd : ClusterData)
    (acc : List MetricSample × OffsetTable) (topic : String) :
    List MetricSample × OffsetTable :=
  if !(e.topicFilter topic) || e.topicExclude topic then acc
  else
    match cd.partitions topic with
    | none => acc
    | some parts =>
      let r := processTopicParts e cd topic parts (clearTopic acc.2 topic)
      (acc.1 ++ ⟨"kafka_topic_partitions", [topic], (parts.length : Int)⟩ :: r.1, r.2)

/-- Sequential left-to-right processing of the topic list.  The worker pool
processes disjoint accepted topics concurrently; since distinct topics touch
disjoint table keys and contribute disjoint metric batches, the final table
and the multiset of emitted samples are those of this sequential run. -/
def topicPhaseAux (e : ExporterCfg) (cd : ClusterData) :
    List String → (List MetricSample × OffsetTable) → List MetricSample × OffsetTable
  | [], acc => acc
  | t :: ts, acc => topicPhaseAux e cd ts (getTopicMetrics e cd acc t)

/-- The topic phase of `Exporter.collect` (exporter.go:395-545). -/
def topicPhase (e : ExporterCfg) (cd : ClusterData) (topics : List String) :
    List MetricSample × OffsetTable :=
  topicPhaseAux e cd topics ([], [])

/-- The dispatch predicate of exporter.go:538: a topic is enqueued iff it
matches the allow pattern and does not match the deny pattern. -/
def acceptedTopic (e : ExporterCfg) (topic : String) : Bool :=
  e.topicFilter topic && !(e.topicExclude topic)

/-- The Go worker count computation of exporter.go:519-535: `minx` is the
source's local helper, `numWorkers` is the final value of its variable `N`. -/
def minx (x y : Int) : Int := if x < y then x else y

/-- Final value of `N` in `Exporter.collect` (exporter.go:527-530). -/
def numWorkers (topics : List String) (topicWorkers : Int) : Int :=
  if (topics.length : Int) > 1 then minx ((topics.length : Int) / 2) topicWorkers
  else (topics.length : Int)

/-- Number of goroutines actually spawned by `for w := 1; w <= N; w++`
(exporter.go:532-535): the loop body runs max(N, 0) times. -/
def spawnedWorkers (topics : List String) (topicWorkers : Int) : Nat :=
  (numWorkers topics topicWorkers).toNat

/-- One block of a sarama `OffsetFetchResponse`: the committed offset and the
per-block error code (`sarama.ErrNoError` is 0). -/
structure OffsetFetchResponseBlock where
  offset : Int
  err : Int
  deriving DecidableEq

/-- One member of a described group; `assignment` is the result of
`GetMemberAssignment`, `none` modelling a parse error, `some` giving the
assigned partitions per topic. -/
structure DescribedMember where
  assignment : Option (List (String × List Int))

/-- One group of a `DescribeGroups` response. -/
structure DescribedGroup where
  groupId : String
  members : List DescribedMember

/-- Deterministic snapshot of everything `getConsumerGroupMetrics` reads
from one broker connection.  `openOk` is false when `broker.Open` failed
with an error other than `ErrAlreadyConnected`; `none` results model the
error return of the corresponding call.  `fetchOffset` receives the group
id and the requested (topic, partition) pairs and yields the response
blocks, keyed topic → (partition, block) list. -/
structure BrokerData where
  brokerId : Int
  addr : String
  openOk : Bool
  listGroups : Option (List String)
  describeGroups : List String → Option (List DescribedGroup)
  fetchOffset : String → List (String × Int) →
    Option (List (String × List (Int × OffsetFetchResponseBlock)))

/-- Accumulator of the per-topic partition loop of `getConsumerGroupMetrics`
(exporter.go:617-648): emitted samples and the two running int64 sums. -/
structure GroupAcc where
  ms : List MetricSample
  curSum : Int
  lagSum : Int
  deriving DecidableEq

/-- Body of the partition loop (exporter.go:619-648).  An errored block is
skipped entirely; otherwise the committed offset is emitted and added to the
current-offset sum (also when it is the -1 sentinel), and when the offset
table has the partition the lag is emitted: verbatim -1 for the sentinel,
else table value minus committed offset, the latter also accumulated. -/
def partitionStep (tbl : OffsetTable) (g t : String) (acc : GroupAcc)
    (pb : Int × OffsetFetchResponseBlock) : GroupAcc :=
  if pb.2.err ≠ 0 then acc
  else
    match otLookup tbl (t, pb.1) with
    | some off =>
      { ms := acc.ms
          ++ [⟨"kafka_consumergroup_current_offset", [g, t, toString pb.1], pb.2.offset⟩,
              ⟨"kafka_consumergroup_lag", [g, t, toString pb.1],
                if pb.2.offset = -1 then -1 else i64sub off pb.2.offset⟩],
        curSum := i64add acc.curSum pb.2.offset,
        lagSum := if pb.2.offset = -1 then acc.lagSum
                  else i64add acc.lagSum (i64sub off pb.2.offset) }
    | none =>
      { ms := acc.ms ++ [⟨"kafka_consumergroup_current_offset", [g, t, toString pb.1], pb.2.offset⟩],
        curSum := i64add acc.curSum pb.2.offset,
        lagSum := acc.lagSum }

/-- Per-topic processing of an offset-fetch response (exporter.go:603-655):
topics where no partition has a committed offset other than the -1 sentinel
are skipped; otherwise the partition loop runs and the two per-topic sums
are emitted after it. -/
def processTopicBlocks (tbl : OffsetTable) (g t : String)
    (partitions : List (Int × OffsetFetchResponseBlock)) : List MetricSample :=
  if partitions.any (fun pb => pb.2.offset != -1) then
    let r := partitions.foldl (partitionStep tbl g t) ⟨[], 0, 0⟩
    r.ms ++ [⟨"kafka_consumergroup_current_offset_sum", [g, t], r.curSum⟩,
             ⟨"kafka_consumergroup_lag_sum", [g, t], r.lagSum⟩]
  else []

/-- Request building of the members-only discovery mode
(exporter.go:581-592): walk the group members in order, adding each member's
assigned partitions; a `GetMemberAssignment` error (`none`) makes the whole
walk fail, since the source returns from the broker task at that point. -/
def buildOffsetFetchRequest : List DescribedMember → Option (List (String × Int))
  | [] => some []
  | m :: rest =>
    match m.assignment with
    | none => none
    | some tps =>
      match buildOffsetFetchRequest rest with
      | none => none
      | some r =>
        some ((tps.map (fun tp => tp.2.map (fun p => (tp.1, p)))).flatten ++ r)

/-- The group loop of `getConsumerGroupMetrics` (exporter.go:572-656).  Note
that a member-assignment parse error returns from the entire broker task
(exporter.go:585), dropping the remaining groups, whereas an offset-fetch
error only skips the current group (exporter.go:600). -/
def processGroups (e : ExporterCfg) (tbl : OffsetTable) (bd : BrokerData) :
    List DescribedGroup → List MetricSample
  | [] => []
  | g :: rest =>
    let req? : Option (List (String × Int)) :=
      if e.offsetShowAll then some (tbl.map Prod.fst)
      else buildOffsetFetchRequest g.members
    match req? with
    | none => []
    | some req =>
      ⟨"kafka_consumergroup_members", [g.groupId], (g.members.length : Int)⟩ ::
      match bd.fetchOffset g.groupId req with
      | none => processGroups e tbl bd rest
      | some blocks =>
        (blocks.map (fun tb => processTopicBlocks tbl g.groupId tb.1 tb.2)).flatten
          ++ processGroups e tbl bd rest

/-- The per-broker task `getConsumerGroupMetrics` (exporter.go:547-657):
open the connection, list groups, filter them by the allow/deny patterns,
describe the survivors and run the group loop. -/
def getConsumerGroupMetrics (e : ExporterCfg) (tbl : OffsetTable) (bd : BrokerData) :
    List MetricSample :=
  if !bd.openOk then []
  else
    match bd.listGroups with
    | none => []
    | some gids =>
      let groupIds := gids.filter (fun g => e.groupFilter g && !(e.groupExclude g))
      match bd.describeGroups groupIds with
      | none => []
      | some groups => processGroups e tbl bd groups

/-- Broker-count and broker-info samples emitted at the top of
`Exporter.collect` (exporter.go:365-372). -/
def brokerMetrics (brokers : List BrokerData) : List MetricSample :=
  ⟨"kafka_brokers", [], (brokers.length : Int)⟩ ::
    brokers.map (fun b => ⟨"kafka_broker_info", [toString b.brokerId, b.addr], 1⟩)

/-- The full pipeline `Exporter.collect` (exporter.go:363-669): broker
metrics, then — unless the topic listing failed, which ends the scrape
early — the topic phase (run to completion, `wg.Wait()` at exporter.go:545)
followed by the consumer-group phase reading the completed offset table. -/
def collect (e : ExporterCfg) (cd : ClusterData) (brokers : List BrokerData) :
    List MetricSample :=
  match cd.topics with
  | none => brokerMetrics brokers
  | some topics =>
    let tp := topicPhase e cd topics
    brokerMetrics brokers ++ tp.1
      ++ (brokers.map (getConsumerGroupMetrics e tp.2)).flatten

/-
Scrape coalescing (exporter.go:315-361).  Every mutation of the coordinator
state (`sgChans`, `sgWaitCh`) happens inside a critical section of
`sgMutex`, so any concurrent execution is equivalent to a sequence of the
two atomic events below.  Runs are numbered by `runsStarted`; a caller's
waiter channel is identified by the number of the run that will close it.
The in-flight invariant of the protocol is `sgChans ≠ []` exactly while a
run is in flight (the leader registers itself before spawning the run, and
the run clears the list at hand-off).
-/

/-- Coordinator state guarded by `sgMutex`: the registered waiter channels
(by caller id) and the number of `collectChans` runs launched so far. -/
structure CoalesceState where
  sgChans : List Nat
  runsStarted : Nat
  deriving DecidableEq

/-- Critical section of `Exporter.Collect` on the coalescing path
(exporter.go:321-332): append the caller's channel; if it is the only one,
launch a new run; return the run the caller will wait on. -/
def collectRegister (s : CoalesceState) (c : Nat) : CoalesceState × Nat :=
  let chans := s.sgChans ++ [c]
  if chans.length = 1 then
    (⟨chans, s.runsStarted + 1⟩, s.runsStarted + 1)
  else
    (⟨chans, s.runsStarted⟩, s.runsStarted)

/-- A batch of callers registering in sequence; yields the final state and
the run each caller waits on. -/
def collectRegisterAll (s : CoalesceState) : List Nat → CoalesceState × List Nat
  | [] => (s, [])
  | c :: cs =>
    let r := collectRegister s c
    let rest := collectRegisterAll r.1 cs
    (rest.1, r.2 :: rest.2)

/-- Critical section of `collectChans` after its single `collect` run
finished (exporter.go:349-360): replay the collected container to every
registered channel, reset the list, close the wait channel. -/
def collectChansDeliver (s : CoalesceState) (container : List MetricSample) :
    CoalesceState × List (Nat × List MetricSample) :=
  (⟨[], s.runsStarted⟩, s.sgChans.map (fun c => (c, container)))

/-
Concrete evaluation data, used by the witness theorems below.
-/

/-- A configuration accepting every topic except "excluded" and every group,
in members-only discovery mode with coalescing enabled. -/
def exCfg : ExporterCfg where
  topicFilter := fun _ => true
  topicExclude := fun t => t == "excluded"
  groupFilter := fun _ => true
  groupExclude := fun _ => false
  useZooKeeperLag := false
  offsetShowAll := false
  topicWorkers := 3
  allowConcurrent := false

/-- A one-topic cluster snapshot: topic "t" with partitions 0 and 1 at
newest offsets 10 and 20 (oldest 5 and 0), replicas [1,2,3], in-sync [1,2],
leader broker 1. -/
def exCluster : ClusterData where
  topics := some ["t"]
  partitions := fun t => if t = "t" then some [0, 1] else none
  leader := fun _ _ => some 1
  getOffsetNewest := fun _ p => (if p = 0 then 10 else 20, true)
  getOffsetOldest := fun _ p => (if p = 0 then 5 else 0, true)
  replicas := fun _ _ => some [1, 2, 3]
  inSyncReplicas := fun _ _ => some [1, 2]
  zkConsumerGroups := []

/-- Offset table of the scenario of spec §8: topic "t", partition 0 at
offset 10 and partition 1 at offset 20. -/
def tblT2 : OffsetTable := [(("t", 0), 10), (("t", 1), 20)]

/-- Offset-fetch blocks of that scenario for group "g": committed offset 7
on partition 0 and the -1 sentinel on partition 1, both error-free. -/
def c3Blocks : List (Int × OffsetFetchResponseBlock) := [(0, ⟨7, 0⟩), (1, ⟨-1, 0⟩)]

/-- Ten topic names, for the worker-pool sizing scenario. -/
def tenTopics : List String :=
  ["t0", "t1", "t2", "t3", "t4", "t5", "t6", "t7", "t8", "t9"]

/-- A broker with two filtered, successfully described groups where the
single member of "g1" has an unparsable assignment and "g2" is healthy.
Go iterates the listed groups in unspecified map order; this snapshot
models the execution in which "g1" is described first. -/
def c5Broker : BrokerData where
  brokerId := 1
  addr := "broker1:9092"
  openOk := true
  listGroups := some ["g1", "g2"]
  describeGroups := fun _ =>
    some [⟨"g1", [⟨none⟩]⟩, ⟨"g2", [⟨some [("t", [0])]⟩]⟩]
  fetchOffset := fun _ _ => some [("t", [(0, ⟨5, 0⟩)])]

/-- A broker with one described group whose single member has an unparsable
assignment. -/
def c6BrokerBadAssign : BrokerData where
  brokerId := 1
  addr := "broker1:9092"
  openOk := true
  listGroups := some ["g"]
  describeGroups := fun _ => some [⟨"g", [⟨none⟩]⟩]
  fetchOffset := fun _ _ => some [("t", [(0, ⟨5, 0⟩)])]

/-- A broker with one healthy described group whose offset fetch fails. -/
def c6BrokerFetchFail : BrokerData where
  brokerId := 1
  addr := "broker1:9092"
  openOk := true
  listGroups := some ["g"]
  describeGroups := fun _ => some [⟨"g", [⟨some [("t", [0])]⟩]⟩]
  fetchOffset := fun _ _ => none

/-
Theorems.
-/

theorem wrap64_eq_self {x : Int}
    (h1 : -9223372036854775808 ≤ x) (h2 : x < 9223372036854775808) :
    wrap64 x = x := by
  unfold wrap64
  omega

theorem collectRegister_inflight (s : CoalesceState) (c : Nat) (h : s.sgChans ≠ []) :
    collectRegister s c = (⟨s.sgChans ++ [c], s.runsStarted⟩, s.runsStarted) := by
  have h0 : s.sgChans.length ≠ 0 := fun h0 => h (List.length_eq_zero.mp h0)
  have hne : (s.sgChans ++ [c]).length ≠ 1 := by
    rw [List.length_append, List.length_singleton]
    omega
  simp [collectRegister, hne, h]

theorem collectRegisterAll_inflight (s : CoalesceState) (cs : List Nat) (h : s.sgChans ≠ []) :
    (collectRegisterAll s cs).1 = ⟨s.sgChans ++ cs, s.runsStarted⟩
  ∧ ∀ w ∈ (collectRegisterAll s cs).2, w = s.runsStarted := by
  induction cs generalizing s with
  | nil => simp [collectRegisterAll]
  | cons c cs ih =>
    have hr := collectRegister_inflight s c h
    have h2 : (⟨s.sgChans ++ [c], s.runsStarted⟩ : CoalesceState).sgChans ≠ [] := by simp
    obtain ⟨ha, hb⟩ := ih ⟨s.sgChans ++ [c], s.runsStarted⟩ h2
    constructor
    · simp only [collectRegisterAll, hr, ha]
      simp
    · intro w hw
      simp only [collectRegisterAll, hr] at hw
      rcases List.mem_cons.mp hw with h1 | h1
      · exact h1
      · exact hb w h1

/-- C1: with coalescing enabled and one run in flight (the coordinator's
channel list is non-empty from the leader's registration until hand-off),
any batch of further Collect callers triggers no additional collect run,
every caller waits on the in-flight run, hand-off replays the single run's
container identically to every registered caller, and a caller registering
after the hand-off launches a brand-new run. -/
theorem c1_coalescing (s : CoalesceState) (cs : List Nat) (cNew : Nat)
    (container : List MetricSample) (h : s.sgChans ≠ []) :
    (collectRegisterAll s cs).1.runsStarted = s.runsStarted
  ∧ (∀ w ∈ (collectRegisterAll s cs).2, w = s.runsStarted)
  ∧ (∀ c ∈ s.sgChans ++ cs,
      (c, container) ∈ (collectChansDeliver (collectRegisterAll s cs).1 container).2)
  ∧ (collectRegister
        (collectChansDeliver (collectRegisterAll s cs).1 container).1 cNew).1.runsStarted
      = s.runsStarted + 1 := by
  obtain ⟨ha, hb⟩ := collectRegisterAll_inflight s cs h
  refine ⟨by rw [ha], hb, ?_, ?_⟩
  · intro c hc
    rw [ha]
    simp only [collectChansDeliver, List.mem_map]
    exact ⟨c, hc, rfl⟩
  · rw [ha]
    simp [collectChansDeliver, collectRegister]

theorem guard_eq (e : ExporterCfg) (t : String) :
    (!(e.topicFilter t) || e.topicExclude t) = !(acceptedTopic e t) := by
  unfold acceptedTopic
  cases e.topicFilter t <;> cases e.topicExclude t <;> rfl

theorem getTopicMetrics_rejected (e : ExporterCfg) (cd : ClusterData) (t : String)
    (h : acceptedTopic e t = false) (acc : List MetricSample × OffsetTable) :
    getTopicMetrics e cd acc t = acc := by
  simp [getTopicMetrics, guard_eq, h]

theorem getTopicMetrics_accepted (e : ExporterCfg) (cd : ClusterData) (t : String)
    (ps : List Int) (h : acceptedTopic e t = true) (hp : cd.partitions t = some ps)
    (acc : List MetricSample × OffsetTable) :
    getTopicMetrics e cd acc t =
      (acc.1 ++ (⟨"kafka_topic_partitions", [t], (ps.length : Int)⟩ : MetricSample) ::
        (processTopicParts e cd t ps (clearTopic acc.2 t)).1,
       (processTopicParts e cd t ps (clearTopic acc.2 t)).2) := by
  simp [getTopicMetrics, guard_eq, h, hp]

theorem topicPhaseAux_filter (e : ExporterCfg) (cd : ClusterData) (ts : List String)
    (acc : List MetricSample × OffsetTable) :
    topicPhaseAux e cd ts acc = topicPhaseAux e cd (ts.filter (acceptedTopic e)) acc := by
  induction ts generalizing acc with
  | nil => rfl
  | cons t ts ih =>
    by_cases h : acceptedTopic e t = true
    · rw [List.filter_cons_of_pos h]
      simp only [topicPhaseAux]
      exact ih _
    · have h2 : acceptedTopic e t = false := by simpa using h
      rw [List.filter_cons_of_neg (by simp [h2])]
      simp only [topicPhaseAux]
      rw [getTopicMetrics_rejected e cd t h2]
      exact ih _

/-- C7: a topic is processed by the topic phase iff it matches the allow
pattern and does not match the deny pattern; a rejected topic leaves the
emitted samples and the offset table untouched, so the whole phase equals
the phase run on the accepted sublist. -/
theorem c7_topic_filter (e : ExporterCfg) (cd : ClusterData) (t : String) (ps : List Int)
    (topics : List String) (hp : cd.partitions t = some ps) :
    (acceptedTopic e t = true ↔
      (⟨"kafka_topic_partitions", [t], (ps.length : Int)⟩ : MetricSample)
        ∈ (getTopicMetrics e cd ([], []) t).1)
  ∧ (acceptedTopic e t = false →
      ∀ acc : List MetricSample × OffsetTable, getTopicMetrics e cd acc t = acc)
  ∧ topicPhase e cd topics = topicPhase e cd (topics.filter (acceptedTopic e)) := by
  refine ⟨⟨?_, ?_⟩, fun h acc => getTopicMetrics_rejected e cd t h acc,
    topicPhaseAux_filter e cd topics _⟩
  · intro h
    rw [getTopicMetrics_accepted e cd t ps h hp]
    simp
  · intro hmem
    by_contra hno
    have h2 : acceptedTopic e t = false := by simpa using hno
    rw [getTopicMetrics_rejected e cd t h2] at hmem
    simp at hmem

theorem c7_topic_filter_witness :
    acceptedTopic exCfg "t" = true
  ∧ (⟨"kafka_topic_partitions", ["t"], 2⟩ : MetricSample)
      ∈ (getTopicMetrics exCfg exCluster ([], []) "t").1 :=
  ⟨by decide,
   ((c7_topic_filter exCfg exCluster "t" [0, 1] ["t"] (by decide)).1).mp (by decide)⟩

/-- C8: the preferred-replica indicator is 1 exactly when the leader fetch
succeeded, the replica fetch succeeded with a non-empty list, and the leader
id is its first element; in every other case (including an empty replica
list or a failed fetch) it is 0, and the sample is emitted for every
partition either way — the embedding is a total function, so no
out-of-bounds access occurs. -/
theorem c8_preferred_replica (e : ExporterCfg) (cd : ClusterData) (t : String) (p : Int) :
    (preferredValue cd t p = 1 ↔
      ∃ bid rs, cd.leader t p = some bid ∧ cd.replicas t p = some rs ∧ rs.head? = some bid)
  ∧ (preferredValue cd t p = 0 ∨ preferredValue cd t p = 1)
  ∧ (⟨"kafka_topic_partition_leader_is_preferred", [t, toString p], preferredValue cd t p⟩ :
      MetricSample) ∈ partitionMetrics e cd t p := by
  refine ⟨?_, ?_, ?_⟩
  · cases hl : cd.leader t p with
    | none => simp [preferredValue, hl]
    | some bid =>
      cases hr : cd.replicas t p with
      | none => simp [preferredValue, hl, hr]
      | some rs =>
        cases rs with
        | nil => simp [preferredValue, hl, hr]
        | cons r rest =>
          by_cases hbr : bid = r
          · subst hbr
            simp [preferredValue, hl, hr]
          · simp [preferredValue, hl, hr, hbr]
            intro h
            exact absurd h.symm hbr
  · unfold preferredValue
    rcases cd.leader t p with _ | bid
    · simp
    · rcases cd.replicas t p with _ | rs
      · simp
      · rcases rs with _ | ⟨r, rest⟩
        · simp
        · by_cases hbr : bid = r <;> simp [hbr]
  · simp [partitionMetrics]

theorem c8_preferred_replica_witness :
    preferredValue exCluster "t" 0 = 1 :=
  (c8_preferred_replica exCfg exCluster "t" 0).1.mpr ⟨1, [1, 2, 3], rfl, rfl, rfl⟩

theorem otLookup_otErase_ne (tbl : OffsetTable) (k k2 : String × Int) (h : k2 ≠ k) :
    otLookup (otErase tbl k) k2 = otLookup tbl k2 := by
  induction tbl with
  | nil => rfl
  | cons kv rest ih =>
    by_cases hk : kv.1 = k
    · rw [otErase, if_pos hk, otLookup, if_neg (by rw [hk]; exact fun he => h he.symm)]
      exact ih
    · rw [otErase, if_neg hk, otLookup, otLookup]
      by_cases h2 : kv.1 = k2 <;> simp [h2, ih]

theorem otLookup_otSet_self (tbl : OffsetTable) (k : String × Int) (v : Int) :
    otLookup (otSet tbl k v) k = some v := by
  simp [otSet, otLookup]

theorem otLookup_otSet_ne (tbl : OffsetTable) (k : String × Int) (v : Int)
    (k2 : String × Int) (h : k2 ≠ k) :
    otLookup (otSet tbl k v) k2 = otLookup tbl k2 := by
  rw [otSet, otLookup, if_neg (fun he => h he.symm)]
  exact otLookup_otErase_ne tbl k k2 h

theorem clearTopic_lookup_ne (tbl : OffsetTable) (topic : String) (k : String × Int)
    (h : k.1 ≠ topic) :
    otLookup (clearTopic tbl topic) k = otLookup tbl k := by
  induction tbl with
  | nil => rfl
  | cons kv rest ih =>
    by_cases hk : kv.1.1 = topic
    · rw [clearTopic, if_pos hk, otLookup,
        if_neg (fun he => h (by rw [← he]; exact hk))]
      exact ih
    · rw [clearTopic, if_neg hk, otLookup, otLookup]
      by_cases h2 : kv.1 = k <;> simp [h2, ih]

theorem processTopicParts_preserve (e : ExporterCfg) (cd : ClusterData) (topic : String)
    (ps : List Int) (tbl : OffsetTable) (k : String × Int)
    (h : ∀ q ∈ ps, (topic, q) ≠ k) :
    otLookup (processTopicParts e cd topic ps tbl).2 k = otLookup tbl k := by
  induction ps generalizing tbl with
  | nil => rfl
  | cons p ps ih =>
    simp only [processTopicParts]
    rw [ih _ (fun q hq => h q (List.mem_cons_of_mem _ hq))]
    by_cases hn : (cd.getOffsetNewest topic p).2
    · rw [if_pos hn]
      exact otLookup_otSet_ne tbl (topic, p) _ k
        (fun he => (h p (List.mem_cons_self _ _)) he.symm)
    · rw [if_neg hn]

theorem processTopicParts_lookup_in (e : ExporterCfg) (cd : ClusterData) (topic : String)
    (ps : List Int) (tbl : OffsetTable) (p : Int) (v : Int)
    (hp : p ∈ ps) (hv : cd.getOffsetNewest topic p = (v, true)) :
    otLookup (processTopicParts e cd topic ps tbl).2 (topic, p) = some v := by
  induction ps generalizing tbl with
  | nil => cases hp
  | cons q ps ih =>
    by_cases hmem : p ∈ ps
    · simp only [processTopicParts]
      exact ih _ hmem
    · have hpq : p = q := by
        rcases List.mem_cons.mp hp with h1 | h1
        · exact h1
        · exact absurd h1 hmem
      subst hpq
      simp only [processTopicParts]
      rw [processTopicParts_preserve e cd topic ps _ (topic, p)
        (fun q2 hq2 he => by
          have h2 : q2 = p := congrArg Prod.snd he
          exact hmem (h2 ▸ hq2))]
      rw [hv]
      simp [otLookup_otSet_self]

theorem getTopicMetrics_table_in (e : ExporterCfg) (cd : ClusterData) (t : String)
    (ps : List Int) (p : Int) (v : Int) (acc : List MetricSample × OffsetTable)
    (ha : acceptedTopic e t = true) (hp : cd.partitions t = some ps)
    (hpin : p ∈ ps) (hv : cd.getOffsetNewest t p = (v, true)) :
    otLookup (getTopicMetrics e cd acc t).2 (t, p) = some v := by
  rw [getTopicMetrics_accepted e cd t ps ha hp]
  exact processTopicParts_lookup_in e cd t ps _ p v hpin hv

theorem getTopicMetrics_table_other (e : ExporterCfg) (cd : ClusterData) (u : String)
    (acc : List MetricSample × OffsetTable) (k : String × Int) (h : k.1 ≠ u) :
    otLookup (getTopicMetrics e cd acc u).2 k = otLookup acc.2 k := by
  by_cases hacc : acceptedTopic e u = true
  · cases hps : cd.partitions u with
    | none => simp [getTopicMetrics, guard_eq, hacc, hps]
    | some qs =>
      rw [getTopicMetrics_accepted e cd u qs hacc hps]
      rw [processTopicParts_preserve e cd u qs _ k
        (fun q hq he => h (by rw [← he]))]
      exact clearTopic_lookup_ne acc.2 u k h
  · rw [getTopicMetrics_rejected e cd u (by simpa using hacc)]

theorem topicPhaseAux_table_preserve (e : ExporterCfg) (cd : ClusterData) (t : String)
    (ps : List Int) (p : Int) (v : Int)
    (ha : acceptedTopic e t = true) (hp : cd.partitions t = some ps)
    (hpin : p ∈ ps) (hv : cd.getOffsetNewest t p = (v, true)) :
    ∀ (ts : List String) (acc : List MetricSample × OffsetTable),
      otLookup acc.2 (t, p) = some v →
      otLookup (topicPhaseAux e cd ts acc).2 (t, p) = some v := by
  intro ts
  induction ts with
  | nil => exact fun acc h => h
  | cons u us ih =>
    intro acc h
    simp only [topicPhaseAux]
    apply ih
    by_cases hu : u = t
    · subst hu
      exact getTopicMetrics_table_in e cd u ps p v acc ha hp hpin hv
    · rw [getTopicMetrics_table_other e cd u acc (t, p) (fun he => hu he.symm)]
      exact h

theorem topicPhaseAux_table_mem (e : ExporterCfg) (cd : ClusterData) (t : String)
    (ps : List Int) (p : Int) (v : Int)
    (ha : acceptedTopic e t = true) (hp : cd.partitions t = some ps)
    (hpin : p ∈ ps) (hv : cd.getOffsetNewest t p = (v, true)) :
    ∀ (ts : List String) (acc : List MetricSample × OffsetTable), t ∈ ts →
      otLookup (topicPhaseAux e cd ts acc).2 (t, p) = some v := by
  intro ts
  induction ts with
  | nil => intro acc h; cases h
  | cons u us ih =>
    intro acc hmem
    simp only [topicPhaseAux]
    by_cases hu : u = t
    · subst hu
      exact topicPhaseAux_table_preserve e cd u ps p v ha hp hpin hv us _
        (getTopicMetrics_table_in e cd u ps p v acc ha hp hpin hv)
    · rcases List.mem_cons.mp hmem with h1 | h1
      · exact absurd h1.symm hu
      · exact ih _ h1

/-- C9: for every accepted topic and partition whose newest-offset fetch
succeeded, the offset table holds exactly that value once the topic phase
has run, and the consumer-group phase of `collect` reads precisely that
completed table — the topic phase (including all table writes) finishes
before the group phase starts. -/
theorem c9_offset_ready (e : ExporterCfg) (cd : ClusterData) (topics : List String)
    (t : String) (ps : List Int) (p : Int) (v : Int)
    (ht : t ∈ topics) (ha : acceptedTopic e t = true)
    (hp : cd.partitions t = some ps) (hpin : p ∈ ps)
    (hv : cd.getOffsetNewest t p = (v, true)) :
    otLookup (topicPhase e cd topics).2 (t, p) = some v
  ∧ ∀ (brokers : List BrokerData), cd.topics = some topics →
      collect e cd brokers =
        brokerMetrics brokers ++ (topicPhase e cd topics).1
          ++ (brokers.map (getConsumerGroupMetrics e (topicPhase e cd topics).2)).flatten := by
  constructor
  · exact topicPhaseAux_table_mem e cd t ps p v ha hp hpin hv topics ([], []) ht
  · intro brokers hcd
    simp [collect, hcd]

theorem c9_offset_ready_witness :
    otLookup (topicPhase exCfg exCluster ["t"]).2 ("t", 0) = some 10 :=
  (c9_offset_ready exCfg exCluster ["t"] "t" [0, 1] 0 10 (by decide) (by decide)
    (by decide) (by decide) (by decide)).1

/-- C2: for a partition block processed without error whose key the offset
table holds, the emitted lag is the -1 sentinel verbatim when the committed
offset is -1 (no subtraction), and otherwise the table value minus the
committed offset — exactly, whenever both operands lie in the int64 range
of actual Kafka offsets, so the wrapping subtraction is the mathematical
one. -/
theorem c2_lag_rule (tbl : OffsetTable) (g t : String) (acc : GroupAcc)
    (p : Int) (blk : OffsetFetchResponseBlock) (off : Int)
    (herr : blk.err = 0) (hoff : otLookup tbl (t, p) = some off) :
    (blk.offset = -1 →
      (partitionStep tbl g t acc (p, blk)).ms =
        acc.ms ++ [⟨"kafka_consumergroup_current_offset", [g, t, toString p], blk.offset⟩,
                   ⟨"kafka_consumergroup_lag", [g, t, toString p], -1⟩])
  ∧ (blk.offset ≠ -1 → 0 ≤ off → off < 9223372036854775808 →
      0 ≤ blk.offset → blk.offset < 9223372036854775808 →
      (partitionStep tbl g t acc (p, blk)).ms =
        acc.ms ++ [⟨"kafka_consumergroup_current_offset", [g, t, toString p], blk.offset⟩,
                   ⟨"kafka_consumergroup_lag", [g, t, toString p], off - blk.offset⟩]) := by
  constructor
  · intro hs
    simp [partitionStep, herr, hoff, hs]
  · intro hs h1 h2 h3 h4
    have hsub : i64sub off blk.offset = off - blk.offset := by
      unfold i64sub
      exact wrap64_eq_self (by omega) (by omega)
    simp [partitionStep, herr, hoff, hs, hsub]

theorem c2_lag_rule_witness :
    (partitionStep tblT2 "g" "t" ⟨[], 0, 0⟩ (0, ⟨7, 0⟩)).ms =
      [⟨"kafka_consumergroup_current_offset", ["g", "t", "0"], 7⟩,
       ⟨"kafka_consumergroup_lag", ["g", "t", "0"], 3⟩] :=
  ((c2_lag_rule tblT2 "g" "t" ⟨[], 0, 0⟩ 0 ⟨7, 0⟩ 10 rfl (by decide)).2
    (by decide) (by decide) (by decide) (by decide) (by decide)).trans (by decide)

/-- C3 counterexample: in the scenario of spec §8 (offsets 10/20, committed
offsets 7 and -1) the per-topic current-offset sum emitted by the code is 6,
not the claimed 7: exporter.go:626 adds the committed offset to the sum
before the -1 sentinel check, so the sentinel is included in that sum. -/
theorem c3_counterexample :
    (⟨"kafka_consumergroup_current_offset_sum", ["g", "t"], 7⟩ : MetricSample)
      ∉ processTopicBlocks tblT2 "g" "t" c3Blocks
  ∧ (⟨"kafka_consumergroup_current_offset_sum", ["g", "t"], 6⟩ : MetricSample)
      ∈ processTopicBlocks tblT2 "g" "t" c3Blocks := by decide

/-- C3 amended: in the §8 scenario the group phase emits current offsets
7 and -1, lags 3 and -1, current-offset sum 6 (the -1 sentinel is included
in the current-offset sum) and lag sum 3 (the sentinel is excluded from the
lag sum only); and a topic none of whose partitions has a committed offset
other than -1 is skipped entirely, so the sums aggregate only topics the
group actually consumes. -/
theorem c3_amended (blocks : List (Int × OffsetFetchResponseBlock))
    (hall : ∀ pb ∈ blocks, pb.2.offset = -1) :
    processTopicBlocks tblT2 "g" "t" c3Blocks =
      [⟨"kafka_consumergroup_current_offset", ["g", "t", "0"], 7⟩,
       ⟨"kafka_consumergroup_lag", ["g", "t", "0"], 3⟩,
       ⟨"kafka_consumergroup_current_offset", ["g", "t", "1"], -1⟩,
       ⟨"kafka_consumergroup_lag", ["g", "t", "1"], -1⟩,
       ⟨"kafka_consumergroup_current_offset_sum", ["g", "t"], 6⟩,
       ⟨"kafka_consumergroup_lag_sum", ["g", "t"], 3⟩]
  ∧ processTopicBlocks tblT2 "g" "t" blocks = [] := by
  constructor
  · decide
  · have hany : blocks.any (fun pb => pb.2.offset != -1) = false := by
      rw [← Bool.not_eq_true]
      intro hc
      rcases List.any_eq_true.mp hc with ⟨pb, hmem, hne⟩
      rw [hall pb hmem] at hne
      simp at hne
    simp [processTopicBlocks, hany]

theorem c3_amended_witness :
    processTopicBlocks tblT2 "g" "t" [(0, ⟨-1, 0⟩)] = [] :=
  (c3_amended [(0, ⟨-1, 0⟩)] (by decide)).2

theorem minx_eq_min (x y : Int) : minx x y = min x y := by
  unfold minx
  rw [min_def]
  split_ifs <;> omega

/-- C4 counterexample: with two topics and a configured worker count of 0
the code computes `N = min(1, 0) = 0` and spawns no worker at all, refuting
"at least 1 worker whenever there is at least one topic". -/
theorem c4_counterexample :
    1 ≤ (["a", "b"] : List String).length ∧ spawnedWorkers ["a", "b"] 0 = 0 := by decide

/-- C4 amended: provided the configured worker count is at least 1, the
scheduler spawns exactly min(len(topics)/2, configuredWorkerCount) workers
when there is more than one topic, at least 1 worker whenever there is at
least one topic (in particular exactly 3 with 10 topics and count 3), and
the consumer-group phase of `collect` runs only on the completed topic
phase's offset table. -/
theorem c4_amended (topics : List String) (w : Int) (hw : 1 ≤ w) :
    (1 < topics.length → (spawnedWorkers topics w : Int) = min ((topics.length : Int) / 2) w)
  ∧ (1 ≤ topics.length → 1 ≤ spawnedWorkers topics w)
  ∧ spawnedWorkers tenTopics 3 = 3
  ∧ (∀ (e : ExporterCfg) (cd : ClusterData) (brokers : List BrokerData) (ts : List String),
      cd.topics = some ts →
      collect e cd brokers =
        brokerMetrics brokers ++ (topicPhase e cd ts).1
          ++ (brokers.map (getConsumerGroupMetrics e (topicPhase e cd ts).2)).flatten) := by
  refine ⟨?_, ?_, by decide, ?_⟩
  · intro h
    have hlen : (2 : Int) ≤ (topics.length : Int) := by exact_mod_cast h
    simp only [spawnedWorkers, numWorkers, minx_eq_min]
    rw [if_pos (by omega)]
    have hmin : 1 ≤ min ((topics.length : Int) / 2) w := le_min (by omega) hw
    omega
  · intro h
    simp only [spawnedWorkers, numWorkers, minx_eq_min]
    by_cases h1 : ((topics.length : Int) > 1)
    · rw [if_pos h1]
      have hmin : 1 ≤ min ((topics.length : Int) / 2) w := le_min (by omega) hw
      omega
    · rw [if_neg h1]
      omega
  · intro e cd brokers ts hcd
    simp [collect, hcd]

theorem c4_amended_witness :
    (1 : Int) ≤ 3 ∧ spawnedWorkers tenTopics 3 = 3 :=
  ⟨by decide, (c4_amended tenTopics 3 (by decide)).2.2.1⟩

/-- C5: evaluation at the failing input.  On a broker whose first described
group has a member with an unparsable assignment, `getConsumerGroupMetrics`
returns from the whole broker task (exporter.go:585): nothing at all is
emitted, and in particular the healthy second group "g2" is never
processed, contradicting the claim that only the affected member or group
is skipped. -/
theorem c5_assignment_abort :
    getConsumerGroupMetrics exCfg tblT2 c5Broker = []
  ∧ (⟨"kafka_consumergroup_members", ["g2"], 1⟩ : MetricSample)
      ∉ getConsumerGroupMetrics exCfg tblT2 c5Broker := by decide

/-- C6: evaluation at the failing input.  For a successfully described group
whose member assignment fails to parse in members-only mode, the code
returns before reaching the members-count emission (exporter.go:585 precedes
exporter.go:594), so no `consumergroup_members` sample is emitted —
refuting "unconditionally".  When the assignment parses, the sample is
emitted before the offset fetch and survives its failure. -/
theorem c6_members_before_fetch :
    getConsumerGroupMetrics exCfg tblT2 c6BrokerBadAssign = []
  ∧ getConsumerGroupMetrics exCfg tblT2 c6BrokerFetchFail =
      [⟨"kafka_consumergroup_members", ["g"], 1⟩] := by decide

/-- C10: a partition block whose error field is set contributes nothing —
no per-partition sample, no change to either sum — the remaining partitions
of the topic are processed as if the block were absent from the loop, and
as long as the topic passes the consumed check the two per-topic sums are
still emitted after the partition loop. -/
theorem c10_error_block (tbl : OffsetTable) (g t : String) (init : GroupAcc)
    (p : Int) (blk : OffsetFetchResponseBlock)
    (pre post : List (Int × OffsetFetchResponseBlock))
    (herr : blk.err ≠ 0) :
    partitionStep tbl g t init (p, blk) = init
  ∧ List.foldl (partitionStep tbl g t) init (pre ++ (p, blk) :: post)
      = List.foldl (partitionStep tbl g t) init (pre ++ post)
  ∧ ((pre ++ (p, blk) :: post).any (fun pb => pb.2.offset != -1) = true →
      processTopicBlocks tbl g t (pre ++ (p, blk) :: post) =
        (List.foldl (partitionStep tbl g t) ⟨[], 0, 0⟩ (pre ++ (p, blk) :: post)).ms
          ++ [⟨"kafka_consumergroup_current_offset_sum", [g, t],
                (List.foldl (partitionStep tbl g t) ⟨[], 0, 0⟩
                  (pre ++ (p, blk) :: post)).curSum⟩,
              ⟨"kafka_consumergroup_lag_sum", [g, t],
                (List.foldl (partitionStep tbl g t) ⟨[], 0, 0⟩
                  (pre ++ (p, blk) :: post)).lagSum⟩]) := by
  have hstep : ∀ a : GroupAcc, partitionStep tbl g t a (p, blk) = a := by
    intro a
    simp [partitionStep, herr]
  refine ⟨hstep init, ?_, ?_⟩
  · rw [List.foldl_append, List.foldl_append, List.foldl_cons, hstep]
  · intro hany
    simp [processTopicBlocks, hany]

theorem c10_error_block_witness :
    List.foldl (partitionStep tblT2 "g" "t") ⟨[], 0, 0⟩
        ([(0, ⟨7, 0⟩)] ++ (1, ⟨5, 1⟩) :: [])
      = List.foldl (partitionStep tblT2 "g" "t") ⟨[], 0, 0⟩ ([(0, ⟨7, 0⟩)] ++ []) :=
  (c10_error_block tblT2 "g" "t" ⟨[], 0, 0⟩ 1 ⟨5, 1⟩ [(0, ⟨7, 0⟩)] [] (by decide)).2.1

theorem c1_coalescing_witness :
    (collectRegisterAll ⟨[0], 1⟩ [1, 2]).1.runsStarted = 1
  ∧ ((1, ([] : List MetricSample)) ∈
      (collectChansDeliver (collectRegisterAll ⟨[0], 1⟩ [1, 2]).1 []).2)
  ∧ (collectRegister
        (collectChansDeliver (collectRegisterAll ⟨[0], 1⟩ [1, 2]).1 []).1 7).1.runsStarted = 2 :=
  have h := c1_coalescing ⟨[0], 1⟩ [1, 2] 7 [] (by decide)
  ⟨h.1, h.2.2.1 1 (by decide), h.2.2.2.trans rfl⟩

end Cprobe
